import Mathlib

/-!
Verification development for the speaking-time tracking engine of the
clocket repository (`src/utils/speakingTimeTracker.js`).

The JavaScript source is shallowly embedded as follows.

* A JS state object is the structure `SpeakingState`; its `parties` object
  (a string-keyed record in insertion order) is an association list
  `List (String × Participant)`; JS key assignment, lookup and `delete`
  become `aset`, `alookup` and `aerase`.
* `null` timestamps become `Option Int` with `none`; JS truthiness tests on
  a timestamp (`!x`, `x && …`) are `truthyTime` (both `null` and `0` are
  falsy); `x || 0` is `orZero`.  The current speaker is `Option String`
  and its truthiness test is `truthyName` (`null` and the empty string are
  falsy).
* `Date.now()` is passed in explicitly as the argument `now : Int`; every
  operation reads it once, exactly as the source does.
* A party-name argument is a `String`; the only falsy string is `""`, so
  the source's `!party || typeof party !== 'string'` guard becomes
  `party = ""` (a non-string argument is handled by the separate JS-level
  wrappers `startSpeakingJS`, `stopTrackingJS`, `addPartyJS`,
  `removePartyJS`, which also model an absent (`null`) state argument and
  which places in the source can throw).

The functional operations below describe the value *returned* by each JS
function.  The source builds that value with a shallow spread
(`const newState = { ...state }`), so the input object's nested `parties`
and `timeline` references are shared with the result; the separate
`…InputAfter` definitions describe what the input object itself denotes
after a call, per that aliasing.
-/

/-- One completed speaking turn of one participant, as pushed by the source
onto `parties[name].segments`.  The JS field `end` is a Lean keyword and is
named `endTime` here. -/
structure Segment where
  start : Int
  endTime : Int
  duration : Int
deriving DecidableEq

/-- A per-participant record: `{ totalTime: 0, segments: [] }` at creation. -/
structure Participant where
  totalTime : Int
  segments : List Segment
deriving DecidableEq

/-- One entry of the global `timeline` array: a completed turn together with
the name of the party who spoke. -/
structure TimelineEntry where
  party : String
  start : Int
  endTime : Int
  duration : Int
deriving DecidableEq

/-- The tracking state produced by `initializeSpeakingTime` and threaded
through every operation.  `parties` is the JS object's key/value pairs in
insertion order. -/
structure SpeakingState where
  parties : List (String × Participant)
  currentSpeaker : Option String
  startTime : Option Int
  hearingStartTime : Option Int
  hearingEndTime : Option Int
  isActive : Bool
  isPaused : Bool
  timeline : List TimelineEntry
deriving DecidableEq

/-- JS object property lookup `ps[k]` on a string-keyed object represented as
an association list. -/
def alookup (ps : List (String × α)) (k : String) : Option α :=
  match ps with
  | [] => none
  | (k', v) :: rest => if k' = k then some v else alookup rest k

/-- JS object property assignment `ps[k] = v`: replaces the value of an
existing key in place, otherwise appends the new key (JS string keys
enumerate in insertion order). -/
def aset (ps : List (String × α)) (k : String) (v : α) : List (String × α) :=
  match ps with
  | [] => [(k, v)]
  | (k', v') :: rest => if k' = k then (k', v) :: rest else (k', v') :: aset rest k v

/-- JS `delete ps[k]`. -/
def aerase (ps : List (String × α)) (k : String) : List (String × α) :=
  match ps with
  | [] => []
  | (k', v') :: rest => if k' = k then rest else (k', v') :: aerase rest k

/-- Truthiness of a nullable JS timestamp: `null` and `0` are falsy. -/
def truthyTime : Option Int → Bool
  | none => false
  | some t => t != 0

/-- Truthiness of the nullable `currentSpeaker` string: `null` and `""` are
falsy. -/
def truthyName : Option String → Bool
  | none => false
  | some s => s != ""

/-- JS `x || 0` on a nullable timestamp (also the value of `x` coerced to a
number where the source does arithmetic on a possibly-`null` timestamp). -/
def orZero : Option Int → Int
  | none => 0
  | some t => t

/-- The zero-valued participant record `{ totalTime: 0, segments: [] }`. -/
def zeroRec : Participant := { totalTime := 0, segments := [] }

/-- The source's default party list `['State', 'Defense', 'Court']`. -/
def defaultParties : List String := ["State", "Defense", "Court"]

/-- The `parties.reduce` of `initializeSpeakingTime`: every listed name is
assigned a zero record (a duplicated name is re-assigned, keeping one key). -/
def initParties (names : List String) : List (String × Participant) :=
  names.foldl (fun acc p => aset acc p zeroRec) []

/-- Embeds `initializeSpeakingTime(parties)` for a proper array argument;
the source substitutes `defaultParties` when the argument is `null` or not
an array (see `initializeSpeakingTimeJS`). -/
def initializeSpeakingTime (names : List String) : SpeakingState :=
  { parties := initParties names
    currentSpeaker := none
    startTime := none
    hearingStartTime := none
    hearingEndTime := none
    isActive := false
    isPaused := false
    timeline := [] }

/-- The shared finalize-a-turn block of `startSpeaking` and `stopTracking`
(the source repeats it verbatim in both): when the speaker `cs` is present
in `parties`, add `duration = now - startTime` to their total, push the
segment onto their history, and push the matching timeline entry; when the
`parties[currentSpeaker]` guard fails, do nothing.  `st0` is the numeric
value of `newState.startTime` (a `null` there coerces to `0` in the
duration arithmetic, see `orZero`). -/
def finalizeSegment (ps : List (String × Participant)) (tl : List TimelineEntry)
    (cs : String) (st0 now : Int) : List (String × Participant) × List TimelineEntry :=
  match alookup ps cs with
  | some prev =>
    let d := now - st0
    (aset ps cs
       { totalTime := prev.totalTime + d
         segments := prev.segments ++ [{ start := st0, endTime := now, duration := d }] },
     tl ++ [{ party := cs, start := st0, endTime := now, duration := d }])
  | none => (ps, tl)

/-- The auto-registration block of `startSpeaking`: when `parties[party]`
is absent, assign it a zero record. -/
def ensureParty (ps : List (String × Participant)) (party : String) :
    List (String × Participant) :=
  match alookup ps party with
  | some _ => ps
  | none => aset ps party zeroRec

/-- Embeds `startSpeaking(state, party)` for a present state and a string
party name, with `now` the single `Date.now()` reading.  Mirrors the source
block by block: the empty-name guard, the first-speaker branch on a falsy
`hearingStartTime`, the finalize-previous-speaker branch (guarded by a
truthy `currentSpeaker` and `currentSpeaker !== party`; the
`parties[currentSpeaker]` guard is inside `finalizeSegment`),
auto-registration of an unknown `party` (`ensureParty`), and the final
field assignments. -/
def startSpeaking (state : SpeakingState) (party : String) (now : Int) : SpeakingState :=
  if party = "" then state
  else
    let fin : List (String × Participant) × List TimelineEntry :=
      match state.currentSpeaker with
      | some cs =>
        if cs ≠ "" ∧ cs ≠ party then
          finalizeSegment state.parties state.timeline cs (orZero state.startTime) now
        else (state.parties, state.timeline)
      | none => (state.parties, state.timeline)
    { state with
      parties := ensureParty fin.1 party
      timeline := fin.2
      hearingStartTime :=
        if truthyTime state.hearingStartTime then state.hearingStartTime else some now
      isActive := if truthyTime state.hearingStartTime then state.isActive else true
      currentSpeaker := some party
      startTime := some now
      isPaused := false }

/-- Embeds `stopTracking(state)` for a present state.  The finalize branch
is guarded by a truthy `currentSpeaker` and a truthy `startTime` (the
`parties[currentSpeaker]` guard is inside `finalizeSegment`); afterwards
the hearing end is stamped and the speaker fields cleared. -/
def stopTracking (state : SpeakingState) (now : Int) : SpeakingState :=
  let fin : List (String × Participant) × List TimelineEntry :=
    match state.currentSpeaker with
    | some cs =>
      if cs ≠ "" ∧ truthyTime state.startTime then
        finalizeSegment state.parties state.timeline cs (orZero state.startTime) now
      else (state.parties, state.timeline)
    | none => (state.parties, state.timeline)
  { state with
    parties := fin.1
    timeline := fin.2
    hearingEndTime := some now
    currentSpeaker := none
    startTime := none
    isActive := false
    isPaused := true }

/-- JS `String.prototype.trim`: drops leading and trailing whitespace
characters (modelled by `Char.isWhitespace`), written with structural
recursion so that it evaluates inside the kernel. -/
def jsTrim (s : String) : String :=
  String.mk (((s.data.dropWhile Char.isWhitespace).reverse.dropWhile Char.isWhitespace).reverse)

/-- Embeds `addParty(state, partyName)` for a present state and a string
name.  The source rejects a falsy or all-whitespace name, returns a
value-equal shallow copy when the key is already present (checked with the
name exactly as given, untrimmed), and otherwise assigns a zero record
under the name exactly as given (untrimmed). -/
def addParty (state : SpeakingState) (partyName : String) : SpeakingState :=
  if partyName = "" ∨ jsTrim partyName = "" then state
  else
    match alookup state.parties partyName with
    | some _ => state
    | none => { state with parties := aset state.parties partyName zeroRec }

/-- Embeds `removeParty(state, partyName)` for a present state and a string
name: rejected when the name is strictly equal to `currentSpeaker`,
otherwise the key is deleted. -/
def removeParty (state : SpeakingState) (partyName : String) : SpeakingState :=
  if state.currentSpeaker = some partyName then state
  else { state with parties := aerase state.parties partyName }

/-- One UI event driving the tracker: the four state-machine operations,
each carrying the `Date.now()` reading observed during the call where the
source reads the clock. -/
inductive TrackerOp where
  | start (party : String) (now : Int)
  | stop (now : Int)
  | add (party : String)
  | remove (party : String)
deriving DecidableEq

/-- Applies one operation to a state. -/
def applyOp (s : SpeakingState) : TrackerOp → SpeakingState
  | .start p now => startSpeaking s p now
  | .stop now => stopTracking s now
  | .add p => addParty s p
  | .remove p => removeParty s p

/-- Applies a whole event sequence; the states reachable from an initial
state are exactly the values of this function. -/
def applyOps (s : SpeakingState) (ops : List TrackerOp) : SpeakingState :=
  ops.foldl applyOp s

/-- Whether an operation is a `removeParty` call. -/
def TrackerOp.isRemove : TrackerOp → Bool
  | .remove _ => true
  | _ => false

/-- The sum of the `duration` fields of a segment list. -/
def sumDurations (segs : List Segment) : Int :=
  (segs.map (fun sg => sg.duration)).sum

/-- The sum of `totalTime` over all participants, as computed by the
`reduce` in `calculateStatistics` (`party.totalTime || 0` is the identity
on the integer totals of this model). -/
def sumTotal (ps : List (String × Participant)) : Int :=
  (ps.map (fun pr => pr.2.totalTime)).sum

/-- The total number of segments over all participants. -/
def segCount (ps : List (String × Participant)) : Nat :=
  (ps.map (fun pr => pr.2.segments.length)).sum

/-- JS `Math.round`: rounds half toward positive infinity,
`Math.round(x) = ⌊x + 1/2⌋`. -/
def jsRound (q : ℚ) : Int := ⌊q + 1 / 2⌋

/-- Per-party block of `calculateStatistics`.  The source renders
`percentage` as the string `(totalTime / totalSpeakingTime * 100).toFixed(1)`
(or `'0'` when the total is zero); this model keeps the exact rational value
of that expression, with `0` for the `'0'` branch — the floating-point
`toFixed` rendering carries no information the claims below use. -/
structure PartyStats where
  totalTime : Int
  percentage : ℚ
  segmentCount : Nat
  averageSegmentTime : Int
deriving DecidableEq

/-- The record returned by `calculateStatistics`. -/
structure Stats where
  totalHearingTime : Int
  totalSpeakingTime : Int
  silenceTime : Int
  parties : List (String × PartyStats)
deriving DecidableEq

/-- The body of the `Object.entries(parties).forEach` of
`calculateStatistics` for one participant (the `partyData && typeof
partyData === 'object'` guard always holds for the records of this model). -/
def mkPartyStats (totalSpeakingTime : Int) (p : Participant) : PartyStats :=
  { totalTime := p.totalTime
    percentage :=
      if totalSpeakingTime > 0 then (p.totalTime : ℚ) / (totalSpeakingTime : ℚ) * 100 else 0
    segmentCount := p.segments.length
    averageSegmentTime :=
      if p.segments.length > 0 then jsRound ((p.totalTime : ℚ) / (p.segments.length : ℚ)) else 0 }

/-- Embeds `calculateStatistics(state)` for a present state:
`totalHearingTime` is the clamped difference of the (possibly `null`,
coerced via `|| 0`) hearing timestamps, `silenceTime` clamps the raw
(unclamped) difference minus the speaking total, and the per-party map is
built over `Object.entries(parties)`. -/
def calculateStatistics (state : SpeakingState) : Stats :=
  let raw := orZero state.hearingEndTime - orZero state.hearingStartTime
  let speaking := sumTotal state.parties
  { totalHearingTime := max 0 raw
    totalSpeakingTime := speaking
    silenceTime := max 0 (raw - speaking)
    parties := state.parties.map (fun pr => (pr.1, mkPartyStats speaking pr.2)) }

/-- The argument of `formatTime`: either a value failing the source's
`ms === null || ms === undefined || isNaN(ms)` guard, or an integer number
of milliseconds (every caller in the source passes an integer). -/
inductive JSTime where
  | missing
  | num (ms : Int)
deriving DecidableEq

/-- JS `s.padStart(2, '0')`. -/
def padStart2 (s : String) : String :=
  String.mk (List.replicate (2 - s.length) '0') ++ s

/-- Embeds `formatTime(ms)`: `'0:00'` for missing/NaN or negative input,
otherwise `H:MM:SS` when the hour count is positive and `M:SS` otherwise,
with `toString` on the leading unit and two-digit zero padding on the
minute and second components. -/
def formatTime : JSTime → String
  | .missing => "0:00"
  | .num ms =>
    if ms < 0 then "0:00"
    else
      let seconds := ms.toNat / 1000
      let minutes := seconds / 60
      let hours := minutes / 60
      if hours > 0 then
        toString hours ++ ":" ++ padStart2 (toString (minutes % 60)) ++ ":" ++
          padStart2 (toString (seconds % 60))
      else
        toString minutes ++ ":" ++ padStart2 (toString (seconds % 60))

/-- A timeline entry as the TIMELINE section of `generateTextReport`
receives it: the `duration` field may be absent (`undefined`), which the
section's guard tests with `!== undefined`.  The array slot itself may hold
a non-object, which the guard's leading `segment &&` rejects; such a slot is
modelled as `none`. -/
structure JTimelineEntry where
  party : String
  start : Int
  endTime : Int
  duration : Option Int
deriving DecidableEq

/-- The guard of the TIMELINE section of `generateTextReport`:
`segment && segment.start && segment.party && segment.duration !== undefined`
(a truthy `start` means nonzero, a truthy `party` means nonempty). -/
def entryListed : Option JTimelineEntry → Bool
  | none => false
  | some e => e.start != 0 && e.party != "" && e.duration != none

/-- The line pushed for a listed entry:
`` `${index + 1}. ${startTime} - ${segment.party} (${duration})\n` ``, where
`startTime` is `new Date(segment.start).toLocaleTimeString()` — a
locale-dependent rendering passed in as `fmtClock` — and `duration` is
`formatTime(segment.duration)`. -/
def renderTimelineLine (fmtClock : Int → String) (idx : Nat) (e : JTimelineEntry) : String :=
  toString idx ++ ". " ++ fmtClock e.start ++ " - " ++ e.party ++ " (" ++
    formatTime (match e.duration with | some d => JSTime.num d | none => JSTime.missing) ++ ")\n"

/-- The `timeline.forEach((segment, index) => …)` loop of the TIMELINE
section of `generateTextReport`, embedded as the list of lines it appends to
the report; `i` is the current `index`. -/
def timelineLinesAux (fmtClock : Int → String) (i : Nat) :
    List (Option JTimelineEntry) → List String
  | [] => []
  | oe :: rest =>
    (match oe with
     | some e =>
       if e.start != 0 && e.party != "" && e.duration != none then
         [renderTimelineLine fmtClock (i + 1) e]
       else []
     | none => []) ++ timelineLinesAux fmtClock (i + 1) rest

/-- The lines of the TIMELINE section of `generateTextReport` for a given
timeline array. -/
def timelineLines (fmtClock : Int → String) (tl : List (Option JTimelineEntry)) : List String :=
  timelineLinesAux fmtClock 0 tl

/-- Modelled from the spec's description of the TIMELINE section: the
chronological listing contains exactly the well-formed entries (per
`entryListed`), each rendered with its one-based position in the full
timeline array.  Stated independently of the loop above so that
`timelineLines` can be proved to refine it. -/
def timelineLinesSpec (fmtClock : Int → String) (tl : List (Option JTimelineEntry)) :
    List String :=
  tl.enum.filterMap fun p =>
    match p.2 with
    | some e => if entryListed (some e) then some (renderTimelineLine fmtClock (p.1 + 1) e) else none
    | none => none

/-- A JS value passed where a party name is expected: a string, `null`,
`undefined`, or some other non-string primitive (represented by a number). -/
inductive JName where
  | str (s : String)
  | nullv
  | undef
  | numv (n : Int)
deriving DecidableEq

/-- The string a value is coerced to when used as a JS property key. -/
def jsKeyOf : JName → String
  | .str s => s
  | .nullv => "null"
  | .undef => "undefined"
  | .numv n => toString n

/-- Embeds `initializeSpeakingTime(parties)` including the guard that
substitutes the default list for a `null`/non-array argument. -/
def initializeSpeakingTimeJS (names : Option (List String)) : SpeakingState :=
  initializeSpeakingTime (names.getD defaultParties)

/-- JS-level `startSpeaking`: an absent state yields a fresh initialized
state; a falsy or non-string party returns the state unchanged; the body is
wrapped in `try`/`catch` and this model of it is total, so the call never
throws. -/
def startSpeakingJS (state : Option SpeakingState) (party : JName) (now : Int) :
    Except String (Option SpeakingState) :=
  match state with
  | none => .ok (some (initializeSpeakingTimeJS none))
  | some s =>
    match party with
    | .str p => .ok (some (startSpeaking s p now))
    | _ => .ok (some s)

/-- JS-level `stopTracking`: an absent state yields a fresh initialized
state; the body is wrapped in `try`/`catch`. -/
def stopTrackingJS (state : Option SpeakingState) (now : Int) :
    Except String (Option SpeakingState) :=
  match state with
  | none => .ok (some (initializeSpeakingTimeJS none))
  | some s => .ok (some (stopTracking s now))

/-- JS-level `addParty`: an absent state is replaced by a fresh initialized
state before the name validation; no statement in the body can throw. -/
def addPartyJS (state : Option SpeakingState) (partyName : JName) :
    Except String (Option SpeakingState) :=
  let s := match state with
    | none => initializeSpeakingTimeJS none
    | some s => s
  match partyName with
  | .str p => .ok (some (addParty s p))
  | _ => .ok (some s)

/-- JS-level `removeParty`.  The source has no absent-state guard and no
`try`/`catch`: it spreads the state (`{ ...null }` is `{}`), compares
`newState.currentSpeaker === partyName` (for an absent state that reads
`undefined`, for a present one `null` or the speaker string), and then
executes `delete newState.parties[partyName]` — which throws a `TypeError`
when `newState.parties` is `undefined`, i.e. whenever the state is absent
and the strict equality did not already return. -/
def removePartyJS (state : Option SpeakingState) (partyName : JName) :
    Except String (Option SpeakingState) :=
  match state with
  | none =>
    if partyName = JName.undef then .ok none
    else .error "TypeError: Cannot convert undefined or null to object"
  | some s =>
    let speakerEq : Bool :=
      match s.currentSpeaker, partyName with
      | some c, .str p => c = p
      | none, .nullv => true
      | _, _ => false
    if speakerEq then .ok (some s)
    else .ok (some { s with parties := aerase s.parties (jsKeyOf partyName) })

/-- Whether an `Except` result is a normal return (no exception). -/
def isOkE : Except String α → Bool
  | .ok _ => true
  | .error _ => false

/-- What the caller's state object denotes after `startSpeaking(state,
party)` returns, per the source's aliasing: the shallow spread shares the
`parties` object and `timeline` array with the result, so every mutation the
body performs on them (totals, segment pushes, timeline pushes, key
assignments) is visible through the input reference, while the top-level
fields assigned on the copy are not. -/
def startSpeakingInputAfter (s : SpeakingState) (party : String) (now : Int) : SpeakingState :=
  { s with
    parties := (startSpeaking s party now).parties
    timeline := (startSpeaking s party now).timeline }

/-- What the caller's state object denotes after `stopTracking(state)`
returns, per the same aliasing as `startSpeakingInputAfter`. -/
def stopTrackingInputAfter (s : SpeakingState) (now : Int) : SpeakingState :=
  { s with
    parties := (stopTracking s now).parties
    timeline := (stopTracking s now).timeline }

/-- What the caller's state object denotes after `addParty(state, name)`
returns: the shared `parties` object carries any key the body assigned. -/
def addPartyInputAfter (s : SpeakingState) (partyName : String) : SpeakingState :=
  { s with parties := (addParty s partyName).parties }

/-- What the caller's state object denotes after `removeParty(state, name)`
returns: the shared `parties` object loses any key the body deleted. -/
def removePartyInputAfter (s : SpeakingState) (partyName : String) : SpeakingState :=
  { s with parties := (removeParty s partyName).parties }

theorem alookup_aset_self (ps : List (String × α)) (k : String) (v : α) :
    alookup (aset ps k v) k = some v := by
  induction ps with
  | nil => simp [aset, alookup]
  | cons hd tl ih =>
    obtain ⟨k', v'⟩ := hd
    by_cases h : k' = k
    · simp [aset, alookup, h]
    · simp [aset, alookup, h, ih]

theorem alookup_aset_ne (ps : List (String × α)) {k k' : String} (v : α) (h : k' ≠ k) :
    alookup (aset ps k v) k' = alookup ps k' := by
  have hne : ¬ k = k' := fun hh => h hh.symm
  induction ps with
  | nil => simp [aset, alookup, hne]
  | cons hd tl ih =>
    obtain ⟨k0, v0⟩ := hd
    by_cases h0 : k0 = k
    · subst h0
      simp [aset, alookup, hne]
    · simp [aset, alookup, h0, ih]

theorem all_aset {P : String × α → Bool} {ps : List (String × α)} {k : String} {v : α}
    (hps : ps.all P = true) (hv : P (k, v) = true) : (aset ps k v).all P = true := by
  induction ps with
  | nil => simp [aset, hv]
  | cons hd tl ih =>
    obtain ⟨k0, v0⟩ := hd
    simp only [List.all_cons, Bool.and_eq_true] at hps
    by_cases h0 : k0 = k
    · subst h0
      simp [aset, hv, hps.2]
    · simp [aset, h0, hps.1, ih hps.2]

theorem all_aerase {P : String × α → Bool} {ps : List (String × α)} (k : String)
    (hps : ps.all P = true) : (aerase ps k).all P = true := by
  induction ps with
  | nil => simp [aerase]
  | cons hd tl ih =>
    obtain ⟨k0, v0⟩ := hd
    simp only [List.all_cons, Bool.and_eq_true] at hps
    by_cases h0 : k0 = k
    · simp [aerase, h0, hps.2]
    · simp [aerase, h0, hps.1, ih hps.2]

theorem all_alookup {P : String × α → Bool} {ps : List (String × α)} {k : String} {v : α}
    (hps : ps.all P = true) (h : alookup ps k = some v) : P (k, v) = true := by
  induction ps with
  | nil => simp [alookup] at h
  | cons hd tl ih =>
    obtain ⟨k0, v0⟩ := hd
    simp only [List.all_cons, Bool.and_eq_true] at hps
    by_cases h0 : k0 = k
    · subst h0
      simp only [alookup, if_pos rfl] at h
      cases h
      exact hps.1
    · simp only [alookup, if_neg h0] at h
      exact ih hps.2 h

theorem sumDurations_append (l : List Segment) (sg : Segment) :
    sumDurations (l ++ [sg]) = sumDurations l + sg.duration := by
  simp [sumDurations]

theorem sumTotal_aset_some {ps : List (String × Participant)} {k : String} {prev : Participant}
    (v : Participant) (h : alookup ps k = some prev) :
    sumTotal (aset ps k v) + prev.totalTime = sumTotal ps + v.totalTime := by
  induction ps with
  | nil => simp [alookup] at h
  | cons hd tl ih =>
    obtain ⟨k0, v0⟩ := hd
    by_cases h0 : k0 = k
    · subst h0
      simp only [alookup, if_pos rfl] at h
      cases h
      simp [aset, sumTotal]
      ring
    · simp only [alookup, if_neg h0] at h
      have := ih h
      simp only [aset, if_neg h0]
      simp only [sumTotal, List.map_cons, List.sum_cons] at this ⊢
      omega

theorem sumTotal_aset_none {ps : List (String × Participant)} {k : String}
    (v : Participant) (h : alookup ps k = none) :
    sumTotal (aset ps k v) = sumTotal ps + v.totalTime := by
  induction ps with
  | nil => simp [aset, sumTotal]
  | cons hd tl ih =>
    obtain ⟨k0, v0⟩ := hd
    by_cases h0 : k0 = k
    · simp only [alookup, if_pos h0] at h
      exact Option.noConfusion h
    · simp only [alookup, if_neg h0] at h
      have := ih h
      simp only [aset, if_neg h0]
      simp only [sumTotal, List.map_cons, List.sum_cons] at this ⊢
      omega

theorem segCount_aset_some {ps : List (String × Participant)} {k : String} {prev : Participant}
    (v : Participant) (h : alookup ps k = some prev) :
    segCount (aset ps k v) + prev.segments.length = segCount ps + v.segments.length := by
  induction ps with
  | nil => simp [alookup] at h
  | cons hd tl ih =>
    obtain ⟨k0, v0⟩ := hd
    by_cases h0 : k0 = k
    · subst h0
      simp only [alookup, if_pos rfl] at h
      cases h
      simp [aset, segCount]
      ring
    · simp only [alookup, if_neg h0] at h
      have := ih h
      simp only [aset, if_neg h0]
      simp only [segCount, List.map_cons, List.sum_cons] at this ⊢
      omega

theorem segCount_aset_none {ps : List (String × Participant)} {k : String}
    (v : Participant) (h : alookup ps k = none) :
    segCount (aset ps k v) = segCount ps + v.segments.length := by
  induction ps with
  | nil => simp [aset, segCount]
  | cons hd tl ih =>
    obtain ⟨k0, v0⟩ := hd
    by_cases h0 : k0 = k
    · simp only [alookup, if_pos h0] at h
      exact Option.noConfusion h
    · simp only [alookup, if_neg h0] at h
      have := ih h
      simp only [aset, if_neg h0]
      simp only [segCount, List.map_cons, List.sum_cons] at this ⊢
      omega

/-- Entry predicate: a freshly created (zero) participant record. -/
def isZeroEntry (pr : String × Participant) : Bool :=
  pr.2.totalTime == 0 && pr.2.segments.isEmpty

theorem initParties_all_zero (names : List String) :
    (initParties names).all isZeroEntry = true := by
  have main : ∀ (ns : List String) (acc : List (String × Participant)),
      acc.all isZeroEntry = true →
      (ns.foldl (fun a p => aset a p zeroRec) acc).all isZeroEntry = true := by
    intro ns
    induction ns with
    | nil => intro acc h; simpa using h
    | cons n ns ih =>
      intro acc h
      exact ih _ (all_aset h (by simp [isZeroEntry, zeroRec]))
  exact main names [] (by simp)

theorem sumTotal_of_all_zero {ps : List (String × Participant)}
    (h : ps.all isZeroEntry = true) : sumTotal ps = 0 := by
  induction ps with
  | nil => simp [sumTotal]
  | cons hd tl ih =>
    simp only [List.all_cons, Bool.and_eq_true] at h
    have h1 : hd.2.totalTime = 0 := by
      have := h.1
      simp [isZeroEntry] at this
      exact this.1
    have h2 := ih h.2
    simp only [sumTotal, List.map_cons, List.sum_cons] at h2 ⊢
    omega

theorem segCount_of_all_zero {ps : List (String × Participant)}
    (h : ps.all isZeroEntry = true) : segCount ps = 0 := by
  induction ps with
  | nil => simp [segCount]
  | cons hd tl ih =>
    simp only [List.all_cons, Bool.and_eq_true] at h
    have h1 : hd.2.segments = [] := by
      have := h.1
      simp [isZeroEntry] at this
      exact this.2
    have h1' : hd.2.segments.length = 0 := by rw [h1]; rfl
    have h2 := ih h.2
    simp only [segCount, List.map_cons, List.sum_cons] at h2 ⊢
    omega

/-- Entry predicate of the bookkeeping invariant: a participant's stored
total equals the sum of its segment durations. -/
def totalsEntryOk (pr : String × Participant) : Bool :=
  pr.2.totalTime == sumDurations pr.2.segments

/-- All participants of a parties map satisfy the bookkeeping invariant. -/
def totalsOk (ps : List (String × Participant)) : Bool :=
  ps.all totalsEntryOk

theorem totalsOk_finalize {ps : List (String × Participant)} (tl : List TimelineEntry)
    (cs : String) (st0 now : Int) (h : totalsOk ps = true) :
    totalsOk (finalizeSegment ps tl cs st0 now).1 = true := by
  unfold finalizeSegment
  cases hcs : alookup ps cs with
  | none => simpa using h
  | some prev =>
    simp only
    apply all_aset h
    have hp := all_alookup h hcs
    simp only [totalsEntryOk, beq_iff_eq] at hp ⊢
    simp [sumDurations_append, hp]

theorem totalsOk_ensure {ps : List (String × Participant)} (p : String)
    (h : totalsOk ps = true) : totalsOk (ensureParty ps p) = true := by
  unfold ensureParty
  cases hp : alookup ps p with
  | some _ => exact h
  | none =>
    apply all_aset h
    simp [totalsEntryOk, zeroRec, sumDurations]

theorem totalsOk_applyOp (s : SpeakingState) (op : TrackerOp)
    (h : totalsOk s.parties = true) : totalsOk (applyOp s op).parties = true := by
  cases op with
  | start p now =>
    simp only [applyOp, startSpeaking]
    by_cases hp : p = ""
    · simp [hp, h]
    · simp only [if_neg hp]
      apply totalsOk_ensure
      cases hcs : s.currentSpeaker with
      | none => simpa using h
      | some cs =>
        by_cases hc : cs ≠ "" ∧ cs ≠ p
        · simp only [if_pos hc]
          exact totalsOk_finalize _ _ _ _ h
        · simp only [if_neg hc]
          exact h
  | stop now =>
    simp only [applyOp, stopTracking]
    cases hcs : s.currentSpeaker with
    | none => simpa using h
    | some cs =>
      by_cases hc : cs ≠ "" ∧ truthyTime s.startTime = true
      · simp only [if_pos hc]
        exact totalsOk_finalize _ _ _ _ h
      · simp only [if_neg hc]
        exact h
  | add p =>
    simp only [applyOp, addParty]
    by_cases hp : p = "" ∨ jsTrim p = ""
    · simp [hp, h]
    · simp only [if_neg hp]
      cases hl : alookup s.parties p with
      | some _ => exact h
      | none =>
        simp only
        apply all_aset h
        simp [totalsEntryOk, zeroRec, sumDurations]
  | remove p =>
    simp only [applyOp, removeParty]
    by_cases hc : s.currentSpeaker = some p
    · simp [hc, h]
    · simp only [if_neg hc]
      exact all_aerase _ h

theorem totalsOk_applyOps (s : SpeakingState) (ops : List TrackerOp)
    (h : totalsOk s.parties = true) : totalsOk (applyOps s ops).parties = true := by
  induction ops generalizing s with
  | nil => exact h
  | cons op ops ih =>
    exact ih _ (totalsOk_applyOp s op h)

theorem timeline_segCount_finalize (ps : List (String × Participant)) (tl : List TimelineEntry)
    (cs : String) (st0 now : Int) (h : tl.length = segCount ps) :
    (finalizeSegment ps tl cs st0 now).2.length = segCount (finalizeSegment ps tl cs st0 now).1 := by
  unfold finalizeSegment
  cases hcs : alookup ps cs with
  | none => simpa using h
  | some prev =>
    simp only [List.length_append, List.length_singleton]
    have h2 := segCount_aset_some
      (v := { totalTime := prev.totalTime + (now - st0)
              segments :=
                prev.segments ++ [{ start := st0, endTime := now, duration := now - st0 }] })
      hcs
    simp only [List.length_append, List.length_singleton] at h2
    omega

theorem segCount_ensure (ps : List (String × Participant)) (p : String) :
    segCount (ensureParty ps p) = segCount ps := by
  unfold ensureParty
  cases hp : alookup ps p with
  | some _ => rfl
  | none =>
    have := segCount_aset_none (v := zeroRec) hp
    simpa [zeroRec] using this

theorem timeline_segCount_applyOp (s : SpeakingState) (op : TrackerOp)
    (hop : op.isRemove = false) (h : s.timeline.length = segCount s.parties) :
    (applyOp s op).timeline.length = segCount (applyOp s op).parties := by
  cases op with
  | start p now =>
    simp only [applyOp, startSpeaking]
    by_cases hp : p = ""
    · simp [hp, h]
    · simp only [if_neg hp]
      rw [segCount_ensure]
      cases hcs : s.currentSpeaker with
      | none => simpa using h
      | some cs =>
        by_cases hc : cs ≠ "" ∧ cs ≠ p
        · simp only [if_pos hc]
          exact timeline_segCount_finalize _ _ _ _ _ h
        · simp only [if_neg hc]
          exact h
  | stop now =>
    simp only [applyOp, stopTracking]
    cases hcs : s.currentSpeaker with
    | none => simpa using h
    | some cs =>
      by_cases hc : cs ≠ "" ∧ truthyTime s.startTime = true
      · simp only [if_pos hc]
        exact timeline_segCount_finalize _ _ _ _ _ h
      · simp only [if_neg hc]
        exact h
  | add p =>
    simp only [applyOp, addParty]
    by_cases hp : p = "" ∨ jsTrim p = ""
    · simp [hp, h]
    · simp only [if_neg hp]
      cases hl : alookup s.parties p with
      | some _ => exact h
      | none =>
        simp only
        rw [segCount_aset_none (v := zeroRec) hl]
        simpa [zeroRec] using h
  | remove p => simp [TrackerOp.isRemove] at hop

theorem timeline_segCount_applyOps (s : SpeakingState) (ops : List TrackerOp)
    (hops : ops.all (fun o => !o.isRemove) = true)
    (h : s.timeline.length = segCount s.parties) :
    (applyOps s ops).timeline.length = segCount (applyOps s ops).parties := by
  induction ops generalizing s with
  | nil => exact h
  | cons op ops ih =>
    simp only [List.all_cons, Bool.and_eq_true, Bool.not_eq_true'] at hops
    exact ih _ hops.2 (timeline_segCount_applyOp s op hops.1 h)

/-- Accumulator step of `startedSinceStop`: a successful `startSpeaking`
(nonempty name) raises the flag, `stopTracking` clears it, the registry
operations leave it alone. -/
def stepFlag (b : Bool) : TrackerOp → Bool
  | .start p _ => if p = "" then b else true
  | .stop _ => false
  | .add _ => b
  | .remove _ => b

/-- Whether a successful `startSpeaking` occurs after the last
`stopTracking` of the event sequence (with nothing started before it). -/
def startedSinceStop (ops : List TrackerOp) : Bool :=
  ops.foldl stepFlag false

theorem speaker_applyOp (s : SpeakingState) (op : TrackerOp) :
    (applyOp s op).currentSpeaker.isSome = stepFlag s.currentSpeaker.isSome op := by
  cases op with
  | start p now =>
    simp only [applyOp, startSpeaking, stepFlag]
    by_cases hp : p = "" <;> simp [hp]
  | stop now => simp [applyOp, stopTracking, stepFlag]
  | add p =>
    simp only [applyOp, addParty, stepFlag]
    by_cases hp : p = "" ∨ jsTrim p = ""
    · simp [hp]
    · simp only [if_neg hp]
      cases alookup s.parties p <;> simp
  | remove p =>
    simp only [applyOp, removeParty, stepFlag]
    by_cases hc : s.currentSpeaker = some p <;> simp [hc]

theorem speaker_applyOps (s : SpeakingState) (ops : List TrackerOp) :
    (applyOps s ops).currentSpeaker.isSome = ops.foldl stepFlag s.currentSpeaker.isSome := by
  induction ops generalizing s with
  | nil => rfl
  | cons op ops ih =>
    simp only [applyOps, List.foldl_cons]
    rw [← speaker_applyOp s op]
    exact ih (applyOp s op)

/-- A map of zero records satisfies the totals invariant. -/
theorem totalsOk_of_all_zero {ps : List (String × Participant)}
    (h : ps.all isZeroEntry = true) : totalsOk ps = true := by
  induction ps with
  | nil => rfl
  | cons hd tl ih =>
    simp only [List.all_cons, Bool.and_eq_true] at h
    have h1 := h.1
    simp only [isZeroEntry, Bool.and_eq_true, beq_iff_eq] at h1
    have h2 : hd.2.segments = [] := by
      have := h1.2
      cases hseg : hd.2.segments with
      | nil => rfl
      | cons a l => rw [hseg] at this; simp [List.isEmpty] at this
    simp only [totalsOk, List.all_cons, Bool.and_eq_true]
    exact ⟨by simp [totalsEntryOk, h1.1, h2, sumDurations], ih h.2⟩

/-- C6: in every state reachable from `initializeSpeakingTime` by any
sequence of `startSpeaking`, `stopTracking`, `addParty` and `removeParty`
calls (with arbitrary clock readings), every participant's `totalTime`
equals the sum of the `duration` fields of that participant's `segments`
sequence. -/
theorem totalTime_eq_sum_of_segment_durations (names : List String) (ops : List TrackerOp) :
    totalsOk (applyOps (initializeSpeakingTime names) ops).parties = true := by
  apply totalsOk_applyOps
  exact totalsOk_of_all_zero (initParties_all_zero names)

/-- C3 (amended): in every state reachable from `initializeSpeakingTime`
by a sequence of `startSpeaking`, `stopTracking` and `addParty` calls —
no `removeParty` — the timeline length equals the total number of
participant segments. -/
theorem timeline_length_eq_segment_count (names : List String) (ops : List TrackerOp)
    (h : ops.all (fun o => !o.isRemove) = true) :
    (applyOps (initializeSpeakingTime names) ops).timeline.length
      = segCount (applyOps (initializeSpeakingTime names) ops).parties := by
  apply timeline_segCount_applyOps _ _ h
  exact (segCount_of_all_zero (initParties_all_zero names)).symm

/-- Witness for `timeline_length_eq_segment_count` at a concrete
remove-free event sequence. -/
theorem timeline_length_eq_segment_count_witness :
    ([TrackerOp.start "State" 1000, TrackerOp.start "Defense" 2000,
        TrackerOp.stop 3000].all (fun o => !o.isRemove) = true)
    ∧ (applyOps (initializeSpeakingTime defaultParties)
          [TrackerOp.start "State" 1000, TrackerOp.start "Defense" 2000,
            TrackerOp.stop 3000]).timeline.length
        = segCount (applyOps (initializeSpeakingTime defaultParties)
          [TrackerOp.start "State" 1000, TrackerOp.start "Defense" 2000,
            TrackerOp.stop 3000]).parties :=
  ⟨by decide, timeline_length_eq_segment_count defaultParties _ (by decide)⟩

/-- C3 counterexample: after `startSpeaking("A")`, `startSpeaking("B")`
(which completes A's turn) and `removeParty("A")`, the timeline still has
one entry while the participants' segment count is zero — `removeParty`
discards the removed party's segments but not its timeline entries. -/
theorem timeline_length_ne_segment_count_after_remove :
    (applyOps (initializeSpeakingTime ["A", "B"])
        [TrackerOp.start "A" 1000, TrackerOp.start "B" 2000,
          TrackerOp.remove "A"]).timeline.length = 1
    ∧ segCount (applyOps (initializeSpeakingTime ["A", "B"])
        [TrackerOp.start "A" 1000, TrackerOp.start "B" 2000,
          TrackerOp.remove "A"]).parties = 0 := by
  decide

/-- C2 (amended): in every reachable state, `currentSpeaker` is non-none
iff a successful `startSpeaking` (nonempty name) has occurred since the
most recent `stopTracking`; but `isActive` does not track this —
`startSpeaking` sets it only when `hearingStartTime` is still unset, so
after `stopTracking` followed by a successful `startSpeaking` the speaker
is non-none while `isActive` stays `false`. -/
theorem currentSpeaker_iff_start_since_stop :
    (∀ (names : List String) (ops : List TrackerOp),
        (applyOps (initializeSpeakingTime names) ops).currentSpeaker ≠ none
          ↔ startedSinceStop ops = true)
    ∧ (applyOps (initializeSpeakingTime defaultParties)
          [TrackerOp.start "State" 1000, TrackerOp.stop 2000,
            TrackerOp.start "State" 3000]).currentSpeaker = some "State"
    ∧ (applyOps (initializeSpeakingTime defaultParties)
          [TrackerOp.start "State" 1000, TrackerOp.stop 2000,
            TrackerOp.start "State" 3000]).isActive = false := by
  refine ⟨?_, by decide, by decide⟩
  intro names ops
  have h := speaker_applyOps (initializeSpeakingTime names) ops
  rw [Option.ne_none_iff_isSome, h]
  exact Iff.rfl

/-- C2 counterexample: after `startSpeaking("State")`, `stopTracking()`,
`startSpeaking("State")` the speaker is non-none while `isActive` is
`false`, contradicting both the claimed iff and its "in particular"
consequence that `isActive` is true there. -/
theorem speaker_nonnull_while_inactive :
    (applyOps (initializeSpeakingTime defaultParties)
        [TrackerOp.start "State" 1000, TrackerOp.stop 2000,
          TrackerOp.start "State" 3000]).currentSpeaker ≠ none
    ∧ (applyOps (initializeSpeakingTime defaultParties)
        [TrackerOp.start "State" 1000, TrackerOp.stop 2000,
          TrackerOp.start "State" 3000]).isActive = false := by
  decide


/-- C4 (amended): when the named participant is already the current
speaker, `startSpeaking` appends no segment to any participant and no
timeline entry and leaves every participant record (and so the speaker's
`totalTime`) unchanged, and is not an error — but `startTime` is reset to
the current clock reading, so it does change when the clock has advanced
between the two calls. -/
theorem startSpeaking_same_speaker (s : SpeakingState) (name : String) (now : Int)
    (hname : name ≠ "") (hcs : s.currentSpeaker = some name)
    (hmem : (alookup s.parties name).isSome = true) :
    (startSpeaking s name now).parties = s.parties
    ∧ (startSpeaking s name now).timeline = s.timeline
    ∧ (startSpeaking s name now).startTime = some now := by
  have hc : ¬ (name ≠ "" ∧ name ≠ name) := by simp
  refine ⟨?_, ?_, ?_⟩
  · simp only [startSpeaking, if_neg hname, hcs, if_neg hc]
    simp only [ensureParty]
    cases hl : alookup s.parties name with
    | some _ => rfl
    | none => rw [hl] at hmem; simp at hmem
  · simp only [startSpeaking, if_neg hname, hcs, if_neg hc]
  · simp only [startSpeaking, if_neg hname, hcs, if_neg hc]

/-- Witness for `startSpeaking_same_speaker` at a concrete re-click. -/
theorem startSpeaking_same_speaker_witness :
    (startSpeaking (startSpeaking (initializeSpeakingTime ["State"]) "State" 1000)
        "State" 3000).parties
      = (startSpeaking (initializeSpeakingTime ["State"]) "State" 1000).parties
    ∧ (startSpeaking (startSpeaking (initializeSpeakingTime ["State"]) "State" 1000)
        "State" 3000).timeline
      = (startSpeaking (initializeSpeakingTime ["State"]) "State" 1000).timeline
    ∧ (startSpeaking (startSpeaking (initializeSpeakingTime ["State"]) "State" 1000)
        "State" 3000).startTime = some 3000 :=
  startSpeaking_same_speaker _ "State" 3000 (by decide) (by decide) (by decide)

/-- C4 counterexample: a second `startSpeaking` by the already-current
speaker with the clock advanced from 1000 to 3000 changes `startTime`,
refuting the claim that `startTime` is left unchanged. -/
theorem startSpeaking_same_speaker_resets_startTime :
    (startSpeaking (startSpeaking (initializeSpeakingTime ["State"]) "State" 1000)
        "State" 3000).startTime
      ≠ (startSpeaking (initializeSpeakingTime ["State"]) "State" 1000).startTime := by
  decide

/-- C9 (amended): `addParty` returns the state unchanged when the name
trims to empty or when the name exactly as given is already a key of
`parties`; otherwise it binds the name exactly as given — not its trimmed
form — to a zero participant record, leaving all other fields unchanged
(a non-string name, rejected by the source's `typeof` guard, has no
counterpart among Lean strings). -/
theorem addParty_spec (s : SpeakingState) (n : String) :
    (jsTrim n = "" → addParty s n = s)
    ∧ ((alookup s.parties n).isSome = true → addParty s n = s)
    ∧ (jsTrim n ≠ "" → alookup s.parties n = none →
        addParty s n = { s with parties := aset s.parties n zeroRec }) := by
  refine ⟨?_, ?_, ?_⟩
  · intro h
    simp [addParty, h]
  · intro h
    by_cases he : n = "" ∨ jsTrim n = ""
    · simp [addParty, he]
    · simp only [addParty, if_neg he]
      cases hl : alookup s.parties n with
      | some _ => rfl
      | none => rw [hl] at h; simp at h
  · intro h1 h2
    have he : ¬ (n = "" ∨ jsTrim n = "") := by
      rintro (rfl | hh)
      · exact h1 rfl
      · exact h1 hh
    simp only [addParty, if_neg he, h2]

/-- Witness for `addParty_spec`: a whitespace-only name is rejected and a
fresh name is inserted. -/
theorem addParty_spec_witness :
    addParty (initializeSpeakingTime defaultParties) "   " = initializeSpeakingTime defaultParties
    ∧ addParty (initializeSpeakingTime defaultParties) "Witness"
        = { initializeSpeakingTime defaultParties with
            parties := aset (initializeSpeakingTime defaultParties).parties "Witness" zeroRec } :=
  ⟨(addParty_spec _ "   ").1 (by decide),
   (addParty_spec _ "Witness").2.2 (by decide) (by decide)⟩

/-- C9 counterexample: `addParty` with name `" Witness "` binds the key
`" Witness "` exactly as given; the trimmed key `"Witness"` the claim
promises is absent. -/
theorem addParty_binds_untrimmed_name :
    alookup (addParty (initializeSpeakingTime ["State"]) " Witness ").parties "Witness" = none
    ∧ alookup (addParty (initializeSpeakingTime ["State"]) " Witness ").parties " Witness "
        = some zeroRec := by
  decide

theorem timelineLinesAux_eq (fmtClock : Int → String) (tl : List (Option JTimelineEntry)) :
    ∀ i, timelineLinesAux fmtClock i tl
      = (tl.enumFrom i).filterMap fun p =>
          match p.2 with
          | some e =>
            if entryListed (some e) then some (renderTimelineLine fmtClock (p.1 + 1) e) else none
          | none => none := by
  induction tl with
  | nil => intro i; rfl
  | cons oe rest ih =>
    intro i
    cases oe with
    | none => simp [timelineLinesAux, List.enumFrom, ih]
    | some e =>
      by_cases h : (e.start ≠ 0 ∧ e.party ≠ "") ∧ e.duration ≠ none
      · simp [timelineLinesAux, List.enumFrom, List.filterMap_cons, ih, entryListed, h]
      · simp [timelineLinesAux, List.enumFrom, List.filterMap_cons, ih, entryListed, h]

/-- C10: the TIMELINE section of `generateTextReport` lists exactly the
entries whose `start` is truthy (nonzero), whose `party` is truthy
(nonempty) and whose `duration` is defined, each with its one-based index
in the full array; consequently a well-formed entry with `start = 0`, or
with an empty `party`, is silently omitted. -/
theorem timeline_section_filter :
    (∀ (fmtClock : Int → String) (tl : List (Option JTimelineEntry)),
        timelineLines fmtClock tl = timelineLinesSpec fmtClock tl)
    ∧ (∀ fmtClock : Int → String,
        timelineLines fmtClock
          [some { party := "State", start := 0, endTime := 5000, duration := some 5000 }] = [])
    ∧ (∀ fmtClock : Int → String,
        timelineLines fmtClock
          [some { party := "", start := 1000, endTime := 5000, duration := some 4000 }] = []) := by
  refine ⟨?_, ?_, ?_⟩
  · intro f tl
    unfold timelineLines timelineLinesSpec
    exact timelineLinesAux_eq f tl 0
  · intro f; rfl
  · intro f; rfl

/-- C8: `formatTime` returns `"0:00"` for missing/non-numeric input, any
negative input and `0`; for non-negative input under one hour it renders
`M:SS` with the leading minutes unpadded and the seconds zero-padded to
two digits, and for an hour or more `H:MM:SS` with the leading hours
unpadded and minutes/seconds zero-padded; in particular
`formatTime 3661000 = "1:01:01"` and `formatTime (-5) = "0:00"`.  It is a
total function, so no input raises. -/
theorem formatTime_spec :
    formatTime JSTime.missing = "0:00"
    ∧ (∀ ms : Int, ms < 0 → formatTime (JSTime.num ms) = "0:00")
    ∧ formatTime (JSTime.num 0) = "0:00"
    ∧ (∀ ms : Int, 0 ≤ ms → ms < 3600000 →
        formatTime (JSTime.num ms)
          = toString (ms.toNat / 60000) ++ ":" ++ padStart2 (toString (ms.toNat / 1000 % 60)))
    ∧ (∀ ms : Int, 3600000 ≤ ms →
        formatTime (JSTime.num ms)
          = toString (ms.toNat / 3600000) ++ ":" ++ padStart2 (toString (ms.toNat / 60000 % 60))
              ++ ":" ++ padStart2 (toString (ms.toNat / 1000 % 60)))
    ∧ formatTime (JSTime.num 3661000) = "1:01:01"
    ∧ formatTime (JSTime.num (-5)) = "0:00" := by
  refine ⟨rfl, ?_, by decide, ?_, ?_, by decide, by decide⟩
  · intro ms h
    simp [formatTime, h]
  · intro ms h0 h1
    have hn : ¬ ms < 0 := not_lt.mpr h0
    have hm : ms.toNat < 3600000 := by omega
    have hhours : ¬ ms.toNat / 1000 / 60 / 60 > 0 := by omega
    have hdd : ms.toNat / 1000 / 60 = ms.toNat / 60000 := by
      rw [Nat.div_div_eq_div_mul]
    simp only [formatTime, if_neg hn, if_neg hhours, hdd]
    rw [if_neg (by omega : ¬ ms.toNat / 60000 / 60 > 0)]
  · intro ms h
    have hn : ¬ ms < 0 := by omega
    have hge : 3600000 ≤ ms.toNat := by omega
    have hpos : ms.toNat / 1000 / 60 / 60 > 0 := by omega
    have hdd : ms.toNat / 1000 / 60 = ms.toNat / 60000 := by
      rw [Nat.div_div_eq_div_mul]
    have hddd : ms.toNat / 1000 / 60 / 60 = ms.toNat / 3600000 := by
      rw [Nat.div_div_eq_div_mul, Nat.div_div_eq_div_mul]
    simp only [formatTime, if_neg hn, if_pos hpos, hddd, hdd]
    have hpos2 : ms.toNat / 60000 / 60 > 0 := by omega
    have h36 : ms.toNat / 60000 / 60 = ms.toNat / 3600000 := by
      rw [Nat.div_div_eq_div_mul]
    rw [if_pos hpos2, h36]

/-- Witness for `formatTime_spec` at 65000 ms (under an hour), 7200000 ms
(two hours) and a negative input. -/
theorem formatTime_spec_witness :
    formatTime (JSTime.num 65000) = "1:05"
    ∧ formatTime (JSTime.num 7200000) = "2:00:00"
    ∧ formatTime (JSTime.num (-7)) = "0:00" :=
  ⟨(formatTime_spec.2.2.2.1 65000 (by decide) (by decide)).trans (by decide),
   (formatTime_spec.2.2.2.2.1 7200000 (by decide)).trans (by decide),
   formatTime_spec.2.1 (-7) (by decide)⟩

/-- C1 is refuted by the source (and by the repository's own
`addParty` immutability test): the shallow spread shares the `parties`
object, so `addParty(initializeSpeakingTime(['State']), 'Defense')`
assigns the key `'Defense'` into the input state's own parties map — the
input does not remain equal to its prior value. -/
theorem addParty_mutates_input :
    alookup (addPartyInputAfter (initializeSpeakingTime ["State"]) "Defense").parties "Defense"
      = some zeroRec
    ∧ alookup (initializeSpeakingTime ["State"]).parties "Defense" = none
    ∧ addPartyInputAfter (initializeSpeakingTime ["State"]) "Defense"
        ≠ initializeSpeakingTime ["State"] := by
  decide

/-- C5: `startSpeaking`, `stopTracking` and `addParty` return normally on
every modelled input (absent state, non-string or empty or whitespace-only
name), but `removeParty` throws a `TypeError` on an absent state with a
string name — the source lacks the null-state guard and `try`/`catch`
every other operation has, so the claim fails for `removeParty`. -/
theorem removeParty_throws_on_absent_state :
    isOkE (removePartyJS none (JName.str "State")) = false
    ∧ (∀ (s : Option SpeakingState) (n : JName) (now : Int),
        isOkE (startSpeakingJS s n now) = true)
    ∧ (∀ (s : Option SpeakingState) (now : Int), isOkE (stopTrackingJS s now) = true)
    ∧ (∀ (s : Option SpeakingState) (n : JName), isOkE (addPartyJS s n) = true) := by
  refine ⟨rfl, ?_, ?_, ?_⟩
  · intro s n now
    cases s <;> cases n <;> rfl
  · intro s now
    cases s <;> rfl
  · intro s n
    cases s <;> cases n <;> rfl

/-- A record satisfying `isZeroEntry` is the zero record. -/
theorem eq_zeroRec_of_isZeroEntry {k : String} {r : Participant}
    (h : isZeroEntry (k, r) = true) : r = zeroRec := by
  cases r with
  | mk tt segs =>
    simp only [isZeroEntry, Bool.and_eq_true, beq_iff_eq] at h
    obtain ⟨h1, h2⟩ := h
    cases segs with
    | nil => simp [zeroRec, h1]
    | cons a l => simp [List.isEmpty] at h2

/-- Looking up the ensured key yields the zero record whenever any
pre-existing binding of that key was itself zero. -/
theorem alookup_ensureParty_self_of_zero {ps : List (String × Participant)} {k : String}
    (h : ∀ r, alookup ps k = some r → r = zeroRec) :
    alookup (ensureParty ps k) k = some zeroRec := by
  unfold ensureParty
  cases hl : alookup ps k with
  | some r =>
    rw [hl, h r hl]
  | none => exact alookup_aset_self ps k zeroRec

/-- `ensureParty` does not affect lookups of other keys. -/
theorem alookup_ensureParty_ne {ps : List (String × Participant)} {k k' : String}
    (h : k' ≠ k) : alookup (ensureParty ps k) k' = alookup ps k' := by
  unfold ensureParty
  cases hl : alookup ps k with
  | some r => rfl
  | none => exact alookup_aset_ne ps zeroRec h

/-- `ensureParty` preserves the speaking-time sum (it only ever adds a
zero record). -/
theorem sumTotal_ensureParty (ps : List (String × Participant)) (k : String) :
    sumTotal (ensureParty ps k) = sumTotal ps := by
  unfold ensureParty
  cases hl : alookup ps k with
  | some r => rfl
  | none =>
    have := sumTotal_aset_none (v := zeroRec) hl
    simpa [zeroRec] using this

/-- Lookup commutes with the per-party statistics map of
`calculateStatistics`. -/
theorem alookup_map_stats (tot : Int) (ps : List (String × Participant)) (k : String) :
    alookup (ps.map fun pr => (pr.1, mkPartyStats tot pr.2)) k
      = (alookup ps k).map (mkPartyStats tot) := by
  induction ps with
  | nil => rfl
  | cons hd tl ih =>
    obtain ⟨k0, v0⟩ := hd
    by_cases h : k0 = k <;> simp [alookup, h, ih]


/-- C7: from a fresh initialized state, the script `startSpeaking(A)` at
`t`, `startSpeaking(B)` at `t + d1`, `stopTracking()` at `t + d1 + d2`
yields statistics with `totalHearingTime = d1 + d2`, `silenceTime = 0`,
`A.totalTime = d1` and `B.totalTime = d2`, for distinct valid names and
non-negative waits (with a positive clock, as `Date.now()` always is). -/
theorem round_trip (names : List String) (A B : String) (t d1 d2 : Int)
    (hA : A ≠ "") (hB : B ≠ "") (hAB : A ≠ B) (ht : 0 < t) (h1 : 0 ≤ d1) (h2 : 0 ≤ d2) :
    (calculateStatistics (stopTracking (startSpeaking (startSpeaking
        (initializeSpeakingTime names) A t) B (t + d1)) (t + d1 + d2))).totalHearingTime
      = d1 + d2
    ∧ (calculateStatistics (stopTracking (startSpeaking (startSpeaking
        (initializeSpeakingTime names) A t) B (t + d1)) (t + d1 + d2))).silenceTime = 0
    ∧ (alookup (calculateStatistics (stopTracking (startSpeaking (startSpeaking
        (initializeSpeakingTime names) A t) B (t + d1)) (t + d1 + d2))).parties A).map
        PartyStats.totalTime = some d1
    ∧ (alookup (calculateStatistics (stopTracking (startSpeaking (startSpeaking
        (initializeSpeakingTime names) A t) B (t + d1)) (t + d1 + d2))).parties B).map
        PartyStats.totalTime = some d2 := by
  have hz := initParties_all_zero names
  have hBA : B ≠ A := fun h => hAB h.symm
  have hA1 : alookup (ensureParty (initParties names) A) A = some zeroRec :=
    alookup_ensureParty_self_of_zero fun r hr => eq_zeroRec_of_isZeroEntry (all_alookup hz hr)
  have hB2 : alookup (ensureParty
      (aset (ensureParty (initParties names) A) A
        { totalTime := d1
          segments := [{ start := t, endTime := t + d1, duration := d1 }] }) B) B
      = some zeroRec := by
    apply alookup_ensureParty_self_of_zero
    intro r hr
    rw [alookup_aset_ne _ _ hBA, alookup_ensureParty_ne hBA] at hr
    exact eq_zeroRec_of_isZeroEntry (all_alookup hz hr)
  have e1 : startSpeaking (initializeSpeakingTime names) A t
      = { parties := ensureParty (initParties names) A
          currentSpeaker := some A
          startTime := some t
          hearingStartTime := some t
          hearingEndTime := none
          isActive := true
          isPaused := false
          timeline := [] } := by
    simp only [startSpeaking, if_neg hA]
    rfl
  have e2 : startSpeaking
      { parties := ensureParty (initParties names) A
        currentSpeaker := some A
        startTime := some t
        hearingStartTime := some t
        hearingEndTime := none
        isActive := true
        isPaused := false
        timeline := ([] : List TimelineEntry) } B (t + d1)
      = { parties := ensureParty
            (aset (ensureParty (initParties names) A) A
              { totalTime := d1
                segments := [{ start := t, endTime := t + d1, duration := d1 }] }) B
          currentSpeaker := some B
          startTime := some (t + d1)
          hearingStartTime := some t
          hearingEndTime := none
          isActive := true
          isPaused := false
          timeline := [{ party := A, start := t, endTime := t + d1, duration := d1 }] } := by
    have htt : truthyTime (some t) = true := by
      simp only [truthyTime, bne_iff_ne, ne_eq]
      omega
    have har : t + d1 - t = d1 := by ring
    simp only [startSpeaking, if_neg hB, if_pos (And.intro hA hAB), finalizeSegment, hA1,
      htt, orZero, zeroRec, har, zero_add, List.nil_append, if_true]
  have e3 : stopTracking
      { parties := ensureParty
          (aset (ensureParty (initParties names) A) A
            { totalTime := d1
              segments := [{ start := t, endTime := t + d1, duration := d1 }] }) B
        currentSpeaker := some B
        startTime := some (t + d1)
        hearingStartTime := some t
        hearingEndTime := none
        isActive := true
        isPaused := false
        timeline := [{ party := A, start := t, endTime := t + d1, duration := d1 }] }
      (t + d1 + d2)
      = { parties := aset
            (ensureParty
              (aset (ensureParty (initParties names) A) A
                { totalTime := d1
                  segments := [{ start := t, endTime := t + d1, duration := d1 }] }) B) B
            { totalTime := d2
              segments := [{ start := t + d1, endTime := t + d1 + d2, duration := d2 }] }
          currentSpeaker := none
          startTime := none
          hearingStartTime := some t
          hearingEndTime := some (t + d1 + d2)
          isActive := false
          isPaused := true
          timeline := [{ party := A, start := t, endTime := t + d1, duration := d1 },
            { party := B, start := t + d1, endTime := t + d1 + d2, duration := d2 }] } := by
    have htt : truthyTime (some (t + d1)) = true := by
      simp only [truthyTime, bne_iff_ne, ne_eq]
      omega
    have har : t + d1 + d2 - (t + d1) = d2 := by ring
    simp only [stopTracking, finalizeSegment, hB2, htt, orZero, zeroRec, har, zero_add,
      List.nil_append, and_true, if_pos hB, List.cons_append, List.singleton_append]
  rw [e1, e2, e3]
  have hsum : sumTotal (aset
      (ensureParty
        (aset (ensureParty (initParties names) A) A
          { totalTime := d1
            segments := [{ start := t, endTime := t + d1, duration := d1 }] }) B) B
      { totalTime := d2
        segments := [{ start := t + d1, endTime := t + d1 + d2, duration := d2 }] })
      = d1 + d2 := by
    have hs3 := sumTotal_aset_some
      (v := { totalTime := d2
              segments := [{ start := t + d1, endTime := t + d1 + d2, duration := d2 }] }) hB2
    have hs2 := sumTotal_ensureParty
      (aset (ensureParty (initParties names) A) A
        { totalTime := d1
          segments := [{ start := t, endTime := t + d1, duration := d1 }] }) B
    have hs1 := sumTotal_aset_some
      (v := { totalTime := d1
              segments := [{ start := t, endTime := t + d1, duration := d1 }] }) hA1
    have hs0 := sumTotal_ensureParty (initParties names) A
    have hzz : sumTotal (initParties names) = 0 := sumTotal_of_all_zero hz
    simp only [zeroRec] at hs3 hs1
    omega
  have harr : t + d1 + d2 - t = d1 + d2 := by ring
  refine ⟨?_, ?_, ?_, ?_⟩
  · simp only [calculateStatistics, orZero]
    rw [harr]
    exact max_eq_right (by omega)
  · simp only [calculateStatistics, orZero]
    rw [harr, hsum]
    simp
  · simp only [calculateStatistics, orZero]
    rw [alookup_map_stats, alookup_aset_ne _ _ hAB, alookup_ensureParty_ne hAB,
      alookup_aset_self]
    simp [mkPartyStats]
  · simp only [calculateStatistics, orZero]
    rw [alookup_map_stats, alookup_aset_self]
    simp [mkPartyStats]

/-- Witness for `round_trip` at a concrete script: Alpha speaks 2000 ms,
Beta speaks 3000 ms, from clock 1000. -/
theorem round_trip_witness :
    (calculateStatistics (stopTracking (startSpeaking (startSpeaking
        (initializeSpeakingTime defaultParties) "Alpha" 1000) "Beta" (1000 + 2000))
        (1000 + 2000 + 3000))).totalHearingTime = 2000 + 3000
    ∧ (calculateStatistics (stopTracking (startSpeaking (startSpeaking
        (initializeSpeakingTime defaultParties) "Alpha" 1000) "Beta" (1000 + 2000))
        (1000 + 2000 + 3000))).silenceTime = 0
    ∧ (alookup (calculateStatistics (stopTracking (startSpeaking (startSpeaking
        (initializeSpeakingTime defaultParties) "Alpha" 1000) "Beta" (1000 + 2000))
        (1000 + 2000 + 3000))).parties "Alpha").map PartyStats.totalTime = some 2000
    ∧ (alookup (calculateStatistics (stopTracking (startSpeaking (startSpeaking
        (initializeSpeakingTime defaultParties) "Alpha" 1000) "Beta" (1000 + 2000))
        (1000 + 2000 + 3000))).parties "Beta").map PartyStats.totalTime = some 3000 :=
  round_trip defaultParties "Alpha" "Beta" 1000 2000 3000 (by decide) (by decide)
    (by decide) (by decide) (by decide) (by decide)
